import Mathlib

/-!
Verification of the grimware combat logic
(`crates/logic-fsharp/src/lib.rs`) and the turn state machine of the app
crate (`crates/app/src/lib.rs`), as a shallow embedding in Lean 4.

Machine integers (`i32`) are modelled as `Int`; the claims and the spec
state the arithmetic mathematically and none of them concerns wrap-around.
`f32` values (cooldown seconds, the HP percentage) are modelled as `ℚ`;
at every input the claims mention the exact rational value is also the
value the `f32` computation rounds to, so the comparisons agree.
-/

namespace Grimware

/-- `Stats` from `logic-fsharp/src/lib.rs`: base statistics of a character. -/
structure Stats where
  hp : Int
  attack : Int
  defense : Int
deriving Repr, DecidableEq

/-- `Character` from `logic-fsharp/src/lib.rs`. -/
structure Character where
  name : String
  hp : Int
  stats : Stats
deriving Repr, DecidableEq

/-- `Character::new_player` from `logic-fsharp/src/lib.rs`. -/
def Character.new_player (name : String) : Character :=
  ⟨name, 30, ⟨30, 10, 2⟩⟩

/-- `Character::new_monster` from `logic-fsharp/src/lib.rs`. -/
def Character.new_monster (name : String) : Character :=
  ⟨name, 20, ⟨20, 6, 1⟩⟩

/-- `Ability` from `logic-fsharp/src/lib.rs`. -/
structure Ability where
  name : String
  power : Int
deriving Repr, DecidableEq

/-- `Ability::basic_attack()`. -/
def Ability.basic_attack : Ability := { name := "Basic Attack", power := 5 }

/-- `Ability::powerful_attack()`. -/
def Ability.powerful_attack : Ability := { name := "Powerful Attack", power := 12 }

/-- `Ability::heal()`. -/
def Ability.heal : Ability := { name := "Heal", power := -8 }

/-- `Ability::quick_strike()`. -/
def Ability.quick_strike : Ability := { name := "Quick Strike", power := 3 }

/-- `CombatEvent` from `logic-fsharp/src/lib.rs`. -/
structure CombatEvent where
  attacker_name : String
  defender_name : String
  damage : Int
  defender_hp_after : Int
  ability_used : String
deriving Repr, DecidableEq

/-- `compute_attack` from `logic-fsharp/src/lib.rs`: pure combat
resolution.  Negative power heals (no defense); otherwise damage is
`max(raw - defense, 1)` with `raw = attack + power`. -/
def compute_attack (attacker defender : Character) (ability : Ability) :
    CombatEvent :=
  let dmg : Int :=
    if ability.power < 0 then
      ability.power
    else
      let raw := attacker.stats.attack + ability.power
      max (raw - defender.stats.defense) 1
  let hp_after := defender.hp - dmg
  { attacker_name := attacker.name
    defender_name := defender.name
    damage := dmg
    defender_hp_after := hp_after
    ability_used := ability.name }

/-- `AbilityType` from `logic-fsharp/src/lib.rs`. -/
inductive AbilityType where
  | BasicAttack
  | PowerfulAttack
  | Heal
deriving Repr, DecidableEq

/-- `AbilityWithMeta` from `logic-fsharp/src/lib.rs`: an ability plus its
AI classification and turn-based cooldown counters (`i32`). -/
structure AbilityWithMeta where
  ability : Ability
  ability_type : AbilityType
  cooldown : Int
  current_cooldown : Int
deriving Repr, DecidableEq

/-- `AbilityWithMeta::basic_attack_meta()` (no cooldown). -/
def AbilityWithMeta.basic_attack_meta : AbilityWithMeta :=
  ⟨Ability.basic_attack, AbilityType.BasicAttack, 0, 0⟩

/-- `AbilityWithMeta::powerful_attack_meta()` (3-turn cooldown). -/
def AbilityWithMeta.powerful_attack_meta : AbilityWithMeta :=
  ⟨Ability.powerful_attack, AbilityType.PowerfulAttack, 3, 0⟩

/-- `AbilityWithMeta::heal_meta()` (4-turn cooldown). -/
def AbilityWithMeta.heal_meta : AbilityWithMeta :=
  ⟨Ability.heal, AbilityType.Heal, 4, 0⟩

/-- `AbilityWithMeta::is_ready()`: `current_cooldown == 0`. -/
def AbilityWithMeta.is_ready (a : AbilityWithMeta) : Bool :=
  a.current_cooldown == 0

/-- `AbilityWithMeta::tick_cooldown()`: decrement, clamped at 0. -/
def AbilityWithMeta.tick_cooldown (a : AbilityWithMeta) : AbilityWithMeta :=
  { a with current_cooldown := max (a.current_cooldown - 1) 0 }

/-- `AbilityWithMeta::activate()`: set the cooldown running. -/
def AbilityWithMeta.activate (a : AbilityWithMeta) : AbilityWithMeta :=
  { a with current_cooldown := a.cooldown }

/-- The HP percentage computed at the top of `choose_monster_action`:
`monster.hp as f32 / monster.stats.hp as f32`, modelled exactly in `ℚ`. -/
def hp_percent_of (monster : Character) : ℚ :=
  (monster.hp : ℚ) / (monster.stats.hp : ℚ)

/-- The `usable` list computed inside `choose_monster_action`: the
abilities whose `current_cooldown` is 0. -/
def usable_of (available_abilities : List AbilityWithMeta) :
    List AbilityWithMeta :=
  available_abilities.filter (fun a => a.current_cooldown == 0)

/-- `choose_monster_action` from `logic-fsharp/src/lib.rs`: health-based
monster AI.  Strictly below 30% HP prefer a usable Heal, then a usable
BasicAttack, then the hard-coded basic attack; strictly above 70% prefer
a usable PowerfulAttack with the same fallbacks; otherwise a usable
BasicAttack, else the hard-coded basic attack.  The `_player` argument is
never read, as in the source. -/
def choose_monster_action (monster : Character) (_player : Character)
    (available_abilities : List AbilityWithMeta) : Ability :=
  if hp_percent_of monster < 3/10 then
    match (usable_of available_abilities).find?
        (fun a => a.ability_type == AbilityType.Heal) with
    | some heal_ability => heal_ability.ability
    | none =>
      match (usable_of available_abilities).find?
          (fun a => a.ability_type == AbilityType.BasicAttack) with
      | some basic => basic.ability
      | none => Ability.basic_attack
  else if hp_percent_of monster > 7/10 then
    match (usable_of available_abilities).find?
        (fun a => a.ability_type == AbilityType.PowerfulAttack) with
    | some powerful => powerful.ability
    | none =>
      match (usable_of available_abilities).find?
          (fun a => a.ability_type == AbilityType.BasicAttack) with
      | some basic => basic.ability
      | none => Ability.basic_attack
  else
    match (usable_of available_abilities).find?
        (fun a => a.ability_type == AbilityType.BasicAttack) with
    | some basic => basic.ability
    | none => Ability.basic_attack

/-- `MonsterAbilities::new()` from `crates/app/src/lib.rs`: the default
monster ability list, all three types off cooldown. -/
def monster_abilities_new : List AbilityWithMeta :=
  [AbilityWithMeta.basic_attack_meta, AbilityWithMeta.powerful_attack_meta,
    AbilityWithMeta.heal_meta]

/-- The ability type each band of `choose_monster_action` prefers: Heal
strictly below 30% HP, PowerfulAttack strictly above 70%, BasicAttack in
the balanced band. -/
def preferred_type (monster : Character) : AbilityType :=
  if hp_percent_of monster < 3/10 then AbilityType.Heal
  else if hp_percent_of monster > 7/10 then AbilityType.PowerfulAttack
  else AbilityType.BasicAttack

/-- The fallback scenario of the repo's own AI tests: heal on cooldown
while the powerful and basic attacks are both usable. -/
def heal_on_cooldown_list : List AbilityWithMeta :=
  [AbilityWithMeta.basic_attack_meta, AbilityWithMeta.powerful_attack_meta,
    AbilityWithMeta.heal_meta.activate]

/-- `AbilitySlot` from `logic-fsharp/src/lib.rs`: an ability with a
real-time cooldown in seconds (`f32`, modelled as `ℚ`). -/
structure AbilitySlot where
  ability : Ability
  cooldown_max : ℚ
  cooldown_current : ℚ
deriving DecidableEq

/-- `AbilitySlot::new`: starts off cooldown. -/
def AbilitySlot.new (ability : Ability) (cooldown_max : ℚ) : AbilitySlot :=
  ⟨ability, cooldown_max, 0⟩

/-- `AbilitySlot::is_ready()`: `cooldown_current <= 0.0`. -/
def AbilitySlot.is_ready (s : AbilitySlot) : Bool :=
  decide (s.cooldown_current ≤ 0)

/-- `AbilitySlot::use_ability()`: restart the cooldown. -/
def AbilitySlot.use_ability (s : AbilitySlot) : AbilitySlot :=
  { s with cooldown_current := s.cooldown_max }

/-- `AbilitySlot::tick(delta)`: `(cooldown_current - delta).max(0.0)`. -/
def AbilitySlot.tick (s : AbilitySlot) (delta : ℚ) : AbilitySlot :=
  { s with cooldown_current := max (s.cooldown_current - delta) 0 }

/-- `CombatState` from `crates/app/src/lib.rs`. -/
inductive CombatState where
  | PlayerTurn
  | MonsterTurn
  | GameOver (winner : String)
deriving Repr, DecidableEq

/-- The game state touched by the two turn-handling systems of
`crates/app/src/lib.rs`: the combat state resource, the player and
monster `Character` components, and the `MonsterAbilities` resource. -/
structure GameState where
  combat_state : CombatState
  player : Character
  monster : Character
  monster_abilities : List AbilityWithMeta
deriving Repr, DecidableEq

/-- `MonsterAbilities::tick_cooldowns()`: tick each ability once. -/
def tick_cooldowns (abilities : List AbilityWithMeta) :
    List AbilityWithMeta :=
  abilities.map AbilityWithMeta.tick_cooldown

/-- `MonsterAbilities::activate_ability(name)`: activate the first
ability whose name matches, leaving the rest untouched. -/
def activate_ability : List AbilityWithMeta → String → List AbilityWithMeta
  | [], _ => []
  | a :: rest, ability_name =>
    if a.ability.name == ability_name then a.activate :: rest
    else a :: activate_ability rest ability_name

/-- `handle_player_turn` from `crates/app/src/lib.rs`, restricted to its
state-relevant effects (an advance happening means the space key was
pressed): outside `PlayerTurn` it returns early; otherwise the player
hits the monster with the basic attack, the monster's HP becomes the
event's `defender_hp_after`, and the state moves to `GameOver` with the
player's name if that HP is `<= 0`, else to `MonsterTurn`. -/
def handle_player_turn (s : GameState) : GameState :=
  if s.combat_state ≠ CombatState.PlayerTurn then s
  else if (compute_attack s.player s.monster Ability.basic_attack).defender_hp_after ≤ 0 then
    { s with
      monster := { s.monster with
        hp := (compute_attack s.player s.monster Ability.basic_attack).defender_hp_after }
      combat_state := CombatState.GameOver s.player.name }
  else
    { s with
      monster := { s.monster with
        hp := (compute_attack s.player s.monster Ability.basic_attack).defender_hp_after }
      combat_state := CombatState.MonsterTurn }

/-- The ability the monster's turn picks: cooldowns are ticked first,
then `choose_monster_action` runs on the ticked list. -/
def monster_chosen_ability (s : GameState) : Ability :=
  choose_monster_action s.monster s.player (tick_cooldowns s.monster_abilities)

/-- `handle_monster_turn` from `crates/app/src/lib.rs`, restricted to
its state-relevant effects (an advance happening means the turn timer
finished): outside `MonsterTurn` it returns early; otherwise cooldowns
tick, the AI picks an ability; a negative-power pick heals the monster
itself with the resulting HP capped at `stats.hp`, a nonnegative-power
pick attacks the player; the used ability's cooldown is activated; the
state moves to `GameOver` with the monster's name if the player's HP is
`<= 0` afterwards, else back to `PlayerTurn`. -/
def handle_monster_turn (s : GameState) : GameState :=
  if s.combat_state ≠ CombatState.MonsterTurn then s
  else if (monster_chosen_ability s).power < 0 then
    if s.player.hp ≤ 0 then
      { s with
        monster := { s.monster with
          hp := min (compute_attack s.monster s.monster
            (monster_chosen_ability s)).defender_hp_after s.monster.stats.hp }
        monster_abilities := activate_ability (tick_cooldowns s.monster_abilities)
          (monster_chosen_ability s).name
        combat_state := CombatState.GameOver s.monster.name }
    else
      { s with
        monster := { s.monster with
          hp := min (compute_attack s.monster s.monster
            (monster_chosen_ability s)).defender_hp_after s.monster.stats.hp }
        monster_abilities := activate_ability (tick_cooldowns s.monster_abilities)
          (monster_chosen_ability s).name
        combat_state := CombatState.PlayerTurn }
  else
    if (compute_attack s.monster s.player (monster_chosen_ability s)).defender_hp_after ≤ 0 then
      { s with
        player := { s.player with
          hp := (compute_attack s.monster s.player
            (monster_chosen_ability s)).defender_hp_after }
        monster_abilities := activate_ability (tick_cooldowns s.monster_abilities)
          (monster_chosen_ability s).name
        combat_state := CombatState.GameOver s.monster.name }
    else
      { s with
        player := { s.player with
          hp := (compute_attack s.monster s.player
            (monster_chosen_ability s)).defender_hp_after }
        monster_abilities := activate_ability (tick_cooldowns s.monster_abilities)
          (monster_chosen_ability s).name
        combat_state := CombatState.PlayerTurn }

/-- The stock opening state of the app: player's turn, stock characters,
default monster ability list. -/
def demo_player_turn_state : GameState :=
  ⟨CombatState.PlayerTurn, Character.new_player "Hero",
    Character.new_monster "Slime", monster_abilities_new⟩

/-- A monster turn with both characters at full stock HP. -/
def demo_monster_turn_state : GameState :=
  ⟨CombatState.MonsterTurn, Character.new_player "Hero",
    Character.new_monster "Slime", monster_abilities_new⟩

/-- A finished game: the player won, the monster lies at −2 HP. -/
def finished_state : GameState :=
  ⟨CombatState.GameOver "Hero", Character.new_player "Hero",
    ⟨"Slime", -2, ⟨20, 6, 1⟩⟩, monster_abilities_new⟩

/-- A monster turn with the monster at 5/20 HP (25%, below the 30%
band), so the AI will pick Heal. -/
def low_hp_state : GameState :=
  ⟨CombatState.MonsterTurn, Character.new_player "Hero",
    ⟨"Slime", 5, ⟨20, 6, 1⟩⟩, monster_abilities_new⟩

end Grimware

namespace Grimware

/-- Membership fact for `find?` over the usable list. -/
theorem usable_find_mem {abilities : List AbilityWithMeta}
    {p : AbilityWithMeta → Bool} {x : AbilityWithMeta}
    (hx : (usable_of abilities).find? p = some x) :
    x ∈ abilities ∧ x.current_cooldown = 0 := by
  have hmem := List.mem_of_find?_eq_some hx
  rw [usable_of, List.mem_filter] at hmem
  exact ⟨hmem.1, by simpa using hmem.2⟩

/-- At full stock HP (100% > 70%) the ticked default list still has the
powerful attack usable, so the AI picks it. -/
theorem monster_chosen_ability_full :
    monster_chosen_ability demo_monster_turn_state = Ability.powerful_attack := by
  have hlow : ¬ hp_percent_of demo_monster_turn_state.monster < 3/10 := by
    norm_num [hp_percent_of, demo_monster_turn_state, Character.new_monster]
  have hhigh : hp_percent_of demo_monster_turn_state.monster > 7/10 := by
    norm_num [hp_percent_of, demo_monster_turn_state, Character.new_monster]
  unfold monster_chosen_ability choose_monster_action
  rw [if_neg hlow, if_pos hhigh]
  decide

/-- At 5/20 HP (25% < 30%) the ticked default list still has the heal
usable, so the AI picks it. -/
theorem monster_chosen_ability_low :
    monster_chosen_ability low_hp_state = Ability.heal := by
  have hlow : hp_percent_of low_hp_state.monster < 3/10 := by
    norm_num [hp_percent_of, low_hp_state]
  unfold monster_chosen_ability choose_monster_action
  rw [if_pos hlow]
  decide

/-- C1: for `ability.power ≥ 0` the damage is
`max 1 (attack + power - defense)`, hence always at least 1. -/
theorem compute_attack_nonneg_power (attacker defender : Character)
    (ability : Ability) (hpow : 0 ≤ ability.power) :
    (compute_attack attacker defender ability).damage =
      max 1 (attacker.stats.attack + ability.power - defender.stats.defense) ∧
    1 ≤ (compute_attack attacker defender ability).damage := by
  have hnot : ¬ ability.power < 0 := not_lt.mpr hpow
  constructor
  · simp only [compute_attack, hnot, if_false]
    rw [max_comm]
  · simp only [compute_attack, hnot, if_false]
    exact le_max_right _ _

/-- Witness for C1 at a concrete triple where defense exceeds attack
plus power: damage is clamped to 1. -/
theorem compute_attack_nonneg_power_witness :
    (0 : Int) ≤ (5 : Int) ∧
    (compute_attack ⟨"Weak", 10, ⟨10, 1, 0⟩⟩ ⟨"Tank", 50, ⟨50, 5, 20⟩⟩
        Ability.basic_attack).damage = max 1 ((1 : Int) + 5 - 20) ∧
    1 ≤ (compute_attack ⟨"Weak", 10, ⟨10, 1, 0⟩⟩ ⟨"Tank", 50, ⟨50, 5, 20⟩⟩
        Ability.basic_attack).damage := by
  refine ⟨by decide, ?_⟩
  exact compute_attack_nonneg_power ⟨"Weak", 10, ⟨10, 1, 0⟩⟩
    ⟨"Tank", 50, ⟨50, 5, 20⟩⟩ Ability.basic_attack (by decide)

/-- C2: for `ability.power < 0` the damage is exactly the (negative)
power, defense is ignored, `defender_hp_after = hp - damage`, and the
defender's HP strictly increases. -/
theorem compute_attack_heal (attacker defender : Character)
    (ability : Ability) (hpow : ability.power < 0) :
    (compute_attack attacker defender ability).damage = ability.power ∧
    (compute_attack attacker defender ability).defender_hp_after =
      defender.hp - (compute_attack attacker defender ability).damage ∧
    defender.hp < (compute_attack attacker defender ability).defender_hp_after := by
  refine ⟨?_, ?_, ?_⟩
  · simp [compute_attack, hpow]
  · simp [compute_attack]
  · simp only [compute_attack, hpow, if_true]
    omega

/-- Witness for C2: the stock heal (power −8) raises HP. -/
theorem compute_attack_heal_witness :
    (Ability.heal.power < 0) ∧
    (compute_attack ⟨"M", 7, ⟨20, 6, 1⟩⟩ ⟨"M", 7, ⟨20, 6, 1⟩⟩
        Ability.heal).damage = Ability.heal.power ∧
    (7 : Int) < (compute_attack ⟨"M", 7, ⟨20, 6, 1⟩⟩ ⟨"M", 7, ⟨20, 6, 1⟩⟩
        Ability.heal).defender_hp_after := by
  refine ⟨by decide, ?_, ?_⟩
  · exact (compute_attack_heal _ _ Ability.heal (by decide)).1
  · exact (compute_attack_heal _ _ Ability.heal (by decide)).2.2

/-- C3: for every triple, `defender_hp_after = defender.hp - damage`. -/
theorem compute_attack_hp_after (attacker defender : Character)
    (ability : Ability) :
    (compute_attack attacker defender ability).defender_hp_after =
      defender.hp - (compute_attack attacker defender ability).damage := by
  simp [compute_attack]

/-- C4: at HP percentage exactly 3/10 or exactly 7/10 the strict bands
`< 0.3` and `> 0.7` both miss, so with all three ability types off
cooldown the policy picks Basic Attack.  (At such inputs the `f32`
quotient and the `f32` literal round to the same value, so the `f32`
comparisons agree with the rational ones used here.) -/
theorem choose_monster_action_boundary (monster opp : Character)
    (h : hp_percent_of monster = 3/10 ∨ hp_percent_of monster = 7/10) :
    choose_monster_action monster opp monster_abilities_new =
      Ability.basic_attack := by
  have hlow : ¬ hp_percent_of monster < 3/10 := by
    rcases h with h | h <;> rw [h] <;> norm_num
  have hhigh : ¬ hp_percent_of monster > 7/10 := by
    rcases h with h | h <;> rw [h] <;> norm_num
  unfold choose_monster_action
  rw [if_neg hlow, if_neg hhigh]
  decide

/-- Witness for C4: HP 6 of 20 sits exactly at 30%; the chosen ability is
Basic Attack. -/
theorem choose_monster_action_boundary_witness :
    (hp_percent_of ⟨"Goblin", 6, ⟨20, 6, 1⟩⟩ = 3/10 ∨
      hp_percent_of ⟨"Goblin", 6, ⟨20, 6, 1⟩⟩ = 7/10) ∧
    choose_monster_action ⟨"Goblin", 6, ⟨20, 6, 1⟩⟩
        (Character.new_player "Hero") monster_abilities_new =
      Ability.basic_attack := by
  have h : hp_percent_of ⟨"Goblin", 6, ⟨20, 6, 1⟩⟩ = 3/10 ∨
      hp_percent_of ⟨"Goblin", 6, ⟨20, 6, 1⟩⟩ = 7/10 := by
    left
    norm_num [hp_percent_of]
  exact ⟨h, choose_monster_action_boundary _ _ h⟩

/-- C5: turn alternation.  From `PlayerTurn`, an advance leaving the
monster with positive HP moves to `MonsterTurn`, and one driving it to
`<= 0` moves to `GameOver` named after the player.  From `MonsterTurn`,
an advance leaving the player with positive HP moves to `PlayerTurn`,
and one leaving the player at `<= 0` moves to `GameOver` named after
the monster. -/
theorem turn_transitions (s : GameState) :
    (s.combat_state = CombatState.PlayerTurn →
      (0 < (handle_player_turn s).monster.hp →
        (handle_player_turn s).combat_state = CombatState.MonsterTurn) ∧
      ((handle_player_turn s).monster.hp ≤ 0 →
        (handle_player_turn s).combat_state =
          CombatState.GameOver s.player.name)) ∧
    (s.combat_state = CombatState.MonsterTurn →
      (0 < (handle_monster_turn s).player.hp →
        (handle_monster_turn s).combat_state = CombatState.PlayerTurn) ∧
      ((handle_monster_turn s).player.hp ≤ 0 →
        (handle_monster_turn s).combat_state =
          CombatState.GameOver s.monster.name)) := by
  constructor
  · intro h
    have hne : ¬ s.combat_state ≠ CombatState.PlayerTurn := by simp [h]
    unfold handle_player_turn
    rw [if_neg hne]
    split
    · rename_i hle
      refine ⟨fun hpos => ?_, fun _ => rfl⟩
      simp only at hpos
      omega
    · rename_i hgt
      refine ⟨fun _ => rfl, fun hle2 => ?_⟩
      simp only at hle2
      omega
  · intro h
    have hne : ¬ s.combat_state ≠ CombatState.MonsterTurn := by simp [h]
    unfold handle_monster_turn
    rw [if_neg hne]
    split
    · split
      · rename_i hple
        refine ⟨fun hpos => ?_, fun _ => rfl⟩
        simp only at hpos
        omega
      · rename_i hpgt
        refine ⟨fun _ => rfl, fun hle2 => ?_⟩
        simp only at hle2
        omega
    · split
      · rename_i hple
        refine ⟨fun hpos => ?_, fun _ => rfl⟩
        simp only at hpos
        omega
      · rename_i hpgt
        refine ⟨fun _ => rfl, fun hle2 => ?_⟩
        simp only at hle2
        omega

/-- Witness for C5: with the stock player and monster, a player advance
is non-lethal (monster 20 → 6 HP) and yields `MonsterTurn`; a monster
advance from full HP is non-lethal (player 30 → 14 HP) and yields
`PlayerTurn`. -/
theorem turn_transitions_witness :
    (handle_player_turn demo_player_turn_state).combat_state =
      CombatState.MonsterTurn ∧
    (handle_monster_turn demo_monster_turn_state).combat_state =
      CombatState.PlayerTurn := by
  constructor
  · exact ((turn_transitions demo_player_turn_state).1 rfl).1 (by decide)
  · have h14 : 0 < (handle_monster_turn demo_monster_turn_state).player.hp := by
      unfold handle_monster_turn
      rw [monster_chosen_ability_full]
      decide
    exact ((turn_transitions demo_monster_turn_state).2 rfl).1 h14

/-- C6: `GameOver` is terminal: once the state is `GameOver{winner}`,
both handlers return the state unchanged (same winner, same HP). -/
theorem game_over_no_op (s : GameState) (w : String)
    (h : s.combat_state = CombatState.GameOver w) :
    handle_player_turn s = s ∧ handle_monster_turn s = s := by
  constructor
  · unfold handle_player_turn
    rw [if_pos (by simp [h])]
  · unfold handle_monster_turn
    rw [if_pos (by simp [h])]

/-- Witness for C6 at a concrete finished game. -/
theorem game_over_no_op_witness :
    handle_player_turn finished_state = finished_state ∧
    handle_monster_turn finished_state = finished_state :=
  game_over_no_op finished_state "Hero" rfl

/-- C7: cooldown laws of `AbilitySlot` under the invariant
`0 ≤ cooldown_current ≤ cooldown_max`: ticking by 0 changes nothing;
ticking by any nonnegative delta keeps `cooldown_current` within
`[0, cooldown_max]` (in particular never below 0); and using the ability
then asking `is_ready` yields true exactly when `cooldown_max ≤ 0`. -/
theorem ability_slot_cooldown_laws (s : AbilitySlot) (delta : ℚ)
    (h0 : 0 ≤ s.cooldown_current) (hmax : s.cooldown_current ≤ s.cooldown_max) :
    (s.tick 0).cooldown_current = s.cooldown_current ∧
    (0 ≤ delta → 0 ≤ (s.tick delta).cooldown_current ∧
      (s.tick delta).cooldown_current ≤ s.cooldown_max) ∧
    (s.use_ability.is_ready = true ↔ s.cooldown_max ≤ 0) := by
  refine ⟨?_, fun hd => ⟨?_, ?_⟩, ?_⟩
  · simp only [AbilitySlot.tick, sub_zero]
    exact max_eq_left h0
  · exact le_max_right _ _
  · exact max_le (by linarith) (le_trans h0 hmax)
  · simp [AbilitySlot.is_ready, AbilitySlot.use_ability]

/-- Witness for C7 at a concrete slot (max 1/2 s, current 1/4 s) and a
concrete delta of 1/10 s. -/
theorem ability_slot_cooldown_laws_witness :
    (0 : ℚ) ≤ (AbilitySlot.mk Ability.basic_attack (1/2) (1/4)).cooldown_current ∧
    ((AbilitySlot.mk Ability.basic_attack (1/2) (1/4)).cooldown_current ≤
      (AbilitySlot.mk Ability.basic_attack (1/2) (1/4)).cooldown_max) ∧
    (((AbilitySlot.mk Ability.basic_attack (1/2) (1/4)).tick 0).cooldown_current =
      (AbilitySlot.mk Ability.basic_attack (1/2) (1/4)).cooldown_current ∧
    ((0 : ℚ) ≤ 1/10 →
      0 ≤ ((AbilitySlot.mk Ability.basic_attack (1/2) (1/4)).tick (1/10)).cooldown_current ∧
      ((AbilitySlot.mk Ability.basic_attack (1/2) (1/4)).tick (1/10)).cooldown_current ≤
        (AbilitySlot.mk Ability.basic_attack (1/2) (1/4)).cooldown_max) ∧
    ((AbilitySlot.mk Ability.basic_attack (1/2) (1/4)).use_ability.is_ready = true ↔
      (AbilitySlot.mk Ability.basic_attack (1/2) (1/4)).cooldown_max ≤ 0)) := by
  refine ⟨by norm_num, by norm_num, ?_⟩
  exact ability_slot_cooldown_laws (AbilitySlot.mk Ability.basic_attack (1/2) (1/4))
    (1/10) (by norm_num) (by norm_num)

/-- C8: when the monster's chosen ability heals (negative power), the
monster-turn handler stores `min(defender_hp_after, stats.hp)` as the
monster's HP — the cap to max health is applied by this caller — while
`compute_attack` itself returns the uncapped `hp - power`. -/
theorem monster_heal_capped (s : GameState)
    (hstate : s.combat_state = CombatState.MonsterTurn)
    (hheal : (monster_chosen_ability s).power < 0) :
    (handle_monster_turn s).monster.hp =
      min (compute_attack s.monster s.monster
        (monster_chosen_ability s)).defender_hp_after s.monster.stats.hp ∧
    (compute_attack s.monster s.monster
        (monster_chosen_ability s)).defender_hp_after =
      s.monster.hp - (monster_chosen_ability s).power ∧
    (handle_monster_turn s).monster.hp ≤ s.monster.stats.hp := by
  have hne : ¬ s.combat_state ≠ CombatState.MonsterTurn := by simp [hstate]
  have hhp : (compute_attack s.monster s.monster
      (monster_chosen_ability s)).defender_hp_after =
      s.monster.hp - (monster_chosen_ability s).power := by
    simp [compute_attack, hheal]
  refine ⟨?_, hhp, ?_⟩ <;>
    · unfold handle_monster_turn
      rw [if_neg hne, if_pos hheal]
      split
      · simp
      · simp

/-- Witness for C8: a monster at 5/20 HP picks Heal (power −8); the
post-heal HP stays within the cap of 20. -/
theorem monster_heal_capped_witness :
    low_hp_state.combat_state = CombatState.MonsterTurn ∧
    (monster_chosen_ability low_hp_state).power < 0 ∧
    (handle_monster_turn low_hp_state).monster.hp ≤
      low_hp_state.monster.stats.hp := by
  have hheal : (monster_chosen_ability low_hp_state).power < 0 := by
    rw [monster_chosen_ability_low]
    decide
  exact ⟨rfl, hheal, (monster_heal_capped low_hp_state rfl hheal).2.2⟩

/-- C9: the AI policy is total and its fallbacks behave as specified:
the result is always either the ability of some off-cooldown entry or
the hard-coded Basic Attack constant; when nothing is usable (including
the empty list) it is exactly the hard-coded constant, whose fields are
name "Basic Attack" and power 5; when the only usable entries are
Basic-Attack-typed, it returns one of those usable entries; and whenever
no usable ability of the band's preferred type exists but some usable
Basic-Attack-type entry does — regardless of what other types remain
usable — it falls back to a usable Basic-Attack-type entry's ability. -/
theorem choose_monster_action_total (monster opp : Character)
    (abilities : List AbilityWithMeta) :
    ((∃ a ∈ abilities, a.current_cooldown = 0 ∧
        choose_monster_action monster opp abilities = a.ability) ∨
      choose_monster_action monster opp abilities = Ability.basic_attack) ∧
    ((∀ a ∈ abilities, a.current_cooldown ≠ 0) →
      choose_monster_action monster opp abilities = Ability.basic_attack) ∧
    (Ability.basic_attack = { name := "Basic Attack", power := 5 }) ∧
    ((∀ a ∈ abilities, a.current_cooldown = 0 →
        a.ability_type = AbilityType.BasicAttack) →
      (∃ b ∈ abilities, b.current_cooldown = 0 ∧
        b.ability_type = AbilityType.BasicAttack) →
      ∃ b ∈ abilities, b.current_cooldown = 0 ∧
        b.ability_type = AbilityType.BasicAttack ∧
        choose_monster_action monster opp abilities = b.ability) ∧
    ((∀ a ∈ abilities, a.current_cooldown = 0 →
        a.ability_type ≠ preferred_type monster) →
      (∃ b ∈ abilities, b.current_cooldown = 0 ∧
        b.ability_type = AbilityType.BasicAttack) →
      ∃ b ∈ abilities, b.current_cooldown = 0 ∧
        b.ability_type = AbilityType.BasicAttack ∧
        choose_monster_action monster opp abilities = b.ability) := by
  refine ⟨?_, ?_, rfl, ?_, ?_⟩
  · unfold choose_monster_action
    split
    · split
      · rename_i x hx
        exact Or.inl ⟨x, (usable_find_mem hx).1, (usable_find_mem hx).2, rfl⟩
      · split
        · rename_i x hx
          exact Or.inl ⟨x, (usable_find_mem hx).1, (usable_find_mem hx).2, rfl⟩
        · exact Or.inr rfl
    · split
      · split
        · rename_i x hx
          exact Or.inl ⟨x, (usable_find_mem hx).1, (usable_find_mem hx).2, rfl⟩
        · split
          · rename_i x hx
            exact Or.inl ⟨x, (usable_find_mem hx).1, (usable_find_mem hx).2, rfl⟩
          · exact Or.inr rfl
      · split
        · rename_i x hx
          exact Or.inl ⟨x, (usable_find_mem hx).1, (usable_find_mem hx).2, rfl⟩
        · exact Or.inr rfl
  · intro hnone
    have hfilter : usable_of abilities = [] := by
      rw [usable_of, List.filter_eq_nil_iff]
      intro a ha
      simpa using hnone a ha
    unfold choose_monster_action
    rw [hfilter]
    split <;> simp
  · intro honly hex
    have hbasic : ((usable_of abilities).find?
        (fun a => a.ability_type == AbilityType.BasicAttack)).isSome := by
      rw [List.find?_isSome]
      obtain ⟨b, hb, hb0, hbt⟩ := hex
      refine ⟨b, ?_, by simpa using hbt⟩
      rw [usable_of, List.mem_filter]
      exact ⟨hb, by simpa using hb0⟩
    obtain ⟨b, hb⟩ := Option.isSome_iff_exists.mp hbasic
    have hbmem := usable_find_mem hb
    have hbp := List.find?_some hb
    have hheal : (usable_of abilities).find?
        (fun a => a.ability_type == AbilityType.Heal) = none := by
      rw [List.find?_eq_none]
      intro x hx
      rw [usable_of, List.mem_filter] at hx
      have hxt := honly x hx.1 (by simpa using hx.2)
      simp [hxt]
    have hpow : (usable_of abilities).find?
        (fun a => a.ability_type == AbilityType.PowerfulAttack) = none := by
      rw [List.find?_eq_none]
      intro x hx
      rw [usable_of, List.mem_filter] at hx
      have hxt := honly x hx.1 (by simpa using hx.2)
      simp [hxt]
    refine ⟨b, hbmem.1, hbmem.2, by simpa using hbp, ?_⟩
    unfold choose_monster_action
    split
    · rw [hheal, hb]
    · split
      · rw [hpow, hb]
      · rw [hb]
  · intro hpref hex
    have hbasic2 : ((usable_of abilities).find?
        (fun a => a.ability_type == AbilityType.BasicAttack)).isSome := by
      rw [List.find?_isSome]
      obtain ⟨b, hbl, hb0, hbt⟩ := hex
      refine ⟨b, ?_, by simpa using hbt⟩
      rw [usable_of, List.mem_filter]
      exact ⟨hbl, by simpa using hb0⟩
    obtain ⟨b, hb⟩ := Option.isSome_iff_exists.mp hbasic2
    have hbmem := usable_find_mem hb
    have hbp := List.find?_some hb
    refine ⟨b, hbmem.1, hbmem.2, by simpa using hbp, ?_⟩
    unfold choose_monster_action
    split
    · rename_i hlow
      have hpteq : preferred_type monster = AbilityType.Heal := by
        unfold preferred_type
        rw [if_pos hlow]
      have hheal : (usable_of abilities).find?
          (fun a => a.ability_type == AbilityType.Heal) = none := by
        rw [List.find?_eq_none]
        intro x hx
        rw [usable_of, List.mem_filter] at hx
        have hxt := hpref x hx.1 (by simpa using hx.2)
        rw [hpteq] at hxt
        simpa using hxt
      rw [hheal, hb]
    · rename_i hnlow
      split
      · rename_i hhigh
        have hpteq : preferred_type monster = AbilityType.PowerfulAttack := by
          unfold preferred_type
          rw [if_neg hnlow, if_pos hhigh]
        have hpow : (usable_of abilities).find?
            (fun a => a.ability_type == AbilityType.PowerfulAttack) = none := by
          rw [List.find?_eq_none]
          intro x hx
          rw [usable_of, List.mem_filter] at hx
          have hxt := hpref x hx.1 (by simpa using hx.2)
          rw [hpteq] at hxt
          simpa using hxt
        rw [hpow, hb]
      · rw [hb]

/-- Witness for C9: an all-on-cooldown list yields the emergency
constant, and a low-HP monster whose Heal is on cooldown while Powerful
and Basic stay usable falls back to a usable Basic-Attack entry. -/
theorem choose_monster_action_total_witness :
    (∀ a ∈ [AbilityWithMeta.heal_meta.activate], a.current_cooldown ≠ 0) ∧
    choose_monster_action ⟨"Goblin", 10, ⟨20, 6, 1⟩⟩
        (Character.new_player "Hero")
        [AbilityWithMeta.heal_meta.activate] = Ability.basic_attack ∧
    (∀ a ∈ heal_on_cooldown_list, a.current_cooldown = 0 →
      a.ability_type ≠ preferred_type ⟨"Goblin", 5, ⟨20, 6, 1⟩⟩) ∧
    ∃ b ∈ heal_on_cooldown_list, b.current_cooldown = 0 ∧
      b.ability_type = AbilityType.BasicAttack ∧
      choose_monster_action ⟨"Goblin", 5, ⟨20, 6, 1⟩⟩
        (Character.new_player "Hero") heal_on_cooldown_list = b.ability := by
  have h : ∀ a ∈ [AbilityWithMeta.heal_meta.activate], a.current_cooldown ≠ 0 := by
    decide
  have hpt : preferred_type ⟨"Goblin", 5, ⟨20, 6, 1⟩⟩ = AbilityType.Heal := by
    unfold preferred_type
    rw [if_pos (by norm_num [hp_percent_of])]
  have hpref : ∀ a ∈ heal_on_cooldown_list, a.current_cooldown = 0 →
      a.ability_type ≠ preferred_type ⟨"Goblin", 5, ⟨20, 6, 1⟩⟩ := by
    rw [hpt]
    decide
  have hex : ∃ b ∈ heal_on_cooldown_list, b.current_cooldown = 0 ∧
      b.ability_type = AbilityType.BasicAttack := by
    decide
  exact ⟨h, (choose_monster_action_total _ _ _).2.1 h, hpref,
    (choose_monster_action_total _ _ _).2.2.2.2 hpref hex⟩

/-- C10: the opponent argument is never read, so the decision is
independent of it: any two calls differing only in the player give the
same ability. -/
theorem choose_monster_action_player_independent (monster p1 p2 : Character)
    (abilities : List AbilityWithMeta) :
    choose_monster_action monster p1 abilities =
      choose_monster_action monster p2 abilities := rfl

end Grimware
